import Mathlib

/-!
# Verification of the go-libapns connection engine (`connection.go`)

A shallow embedding of the APNS connection manager: byte-level frame
encoding, the bounded in-flight replay buffer, id assignment, the
close/error listener, and the error-resolution pass that builds the
final `ConnectionClose` report.  Machine integers are modelled as `Nat`
with explicit `% 2 ^ w` where Go arithmetic can wrap.
-/

/-- Big-endian encoding of a 16-bit value (`binary.Write` of `uint16`). -/
def be16 (n : Nat) : List Nat := [n / 256 % 256, n % 256]

/-- Big-endian encoding of a 32-bit value (`binary.Write` of `uint32`). -/
def be32 (n : Nat) : List Nat :=
  [n / 2 ^ 24 % 256, n / 2 ^ 16 % 256, n / 2 ^ 8 % 256, n % 256]

/-- Value of the first two bytes of a list read big-endian
(the wire reader's view of a `uint16` field). -/
def beVal16 (l : List Nat) : Nat := l.getD 0 0 * 256 + l.getD 1 0

/-- `binary.BigEndian.Uint32` over four bytes. -/
def beUint32 (b2 b3 b4 b5 : Nat) : Nat := ((b2 * 256 + b3) * 256 + b4) * 256 + b5

/-- One hex digit, as `encoding/hex` accepts it (0-9, a-f, A-F). -/
def hexDigitVal (c : Char) : Option Nat :=
  if '0' ≤ c ∧ c ≤ '9' then some (c.toNat - '0'.toNat)
  else if 'a' ≤ c ∧ c ≤ 'f' then some (c.toNat - 'a'.toNat + 10)
  else if 'A' ≤ c ∧ c ≤ 'F' then some (c.toNat - 'A'.toNat + 10)
  else none

/-- `hex.DecodeString` on the character list: two hex digits per output
byte, failing on an odd-length input or a non-hex digit. -/
def hexDecodeList : List Char → Option (List Nat)
  | [] => some []
  | [_] => none
  | c1 :: c2 :: rest =>
      match hexDigitVal c1, hexDigitVal c2, hexDecodeList rest with
      | some h, some l, some t => some ((16 * h + l) :: t)
      | _, _, _ => none

/-- `hex.DecodeString` from `encoding/hex`, used on `Payload.Token`. -/
def hexDecode (s : String) : Option (List Nat) := hexDecodeList s.data

/-- The notification payload (`Payload`, defined outside `connection.go`):
token hex string, priority, expiration epoch seconds, and the alert body,
which we carry as its marshalled bytes. -/
structure Payload where
  Token : String
  Priority : Nat
  ExpirationTime : Nat
  AlertBytes : List Nat
deriving DecidableEq

/-- Modelled from the spec: `marshalAlertBodyPayload` lives in the payload
module, which is not part of `connection.go`; per the spec it is "a marshal
operation bounded to a fixed maximum size that fails with a marshal error on
overflow/invalid input", producing the alert-body bytes when they fit. -/
def marshalAlertBodyPayload (p : Payload) (maxLen : Nat) : Option (List Nat) :=
  if p.AlertBytes.length ≤ maxLen then some p.AlertBytes else none

/-- `AppleError`: the terminal error event. -/
structure AppleError where
  MessageId : Nat
  ErrorCode : Nat
  ErrorString : String
deriving DecidableEq

/-- `idPayload`: a payload paired with its assigned 32-bit id. -/
structure idPayload where
  Payload : Payload
  Id : Nat
deriving DecidableEq

/-- `ConnectionClose`: the terminal report delivered on the close channel.
`UnsentPayloads` is kept oldest-first, as the Go `list.List` ends up. -/
structure ConnectionClose where
  UnsentPayloads : List Payload
  Error : AppleError
  ErrorPayload : Option Payload
  UnsentPayloadBufferOverflow : Bool
deriving DecidableEq

/-- `TCP_FRAME_MAX`. -/
def TCP_FRAME_MAX : Nat := 65535

/-- The `APPLE_PUSH_RESPONSES` map; `none` for keys the Go map does not
contain. -/
def APPLE_PUSH_RESPONSES (c : Nat) : Option String :=
  if c = 0 then some "NO_ERRORS"
  else if c = 1 then some "PROCESSING_ERROR"
  else if c = 2 then some "MISSING_DEVICE_TOKEN"
  else if c = 3 then some "MISSING_TOPIC"
  else if c = 4 then some "MISSING_PAYLOAD"
  else if c = 5 then some "INVALID_TOKEN_SIZE"
  else if c = 6 then some "INVALID_TOPIC_SIZE"
  else if c = 7 then some "INVALID_PAYLOAD_SIZE"
  else if c = 8 then some "INVALID_TOKEN"
  else if c = 10 then some "SHUTDOWN"
  else if c = 255 then some "UNKNOWN"
  else none

/-- `closeListener`: reads 6 bytes from the socket.  A read error yields the
synthetic shutdown event (code 10, id 0, the error's message); a successful
read takes the error code from byte 1 and the message id from bytes 2..5
big-endian.  `APPLE_PUSH_RESPONSES[...]` is a Go map index, whose zero value
for a missing key is the empty string. -/
def closeListener (readResult : Except String (List Nat)) : AppleError :=
  match readResult with
  | Except.error msg => ⟨0, 10, msg⟩
  | Except.ok buffer =>
      ⟨beUint32 (buffer.getD 2 0 % 256) (buffer.getD 3 0 % 256)
          (buffer.getD 4 0 % 256) (buffer.getD 5 0 % 256),
        buffer.getD 1 0 % 256,
        (APPLE_PUSH_RESPONSES (buffer.getD 1 0 % 256)).getD ""⟩

/-- `nextPayloadId` on the current counter value: a `uint32` increment,
then the zero-skip, returning the new counter (which is also the id). -/
def nextPayloadId (c : Nat) : Nat :=
  let c1 := (c + 1) % 2 ^ 32
  if c1 = 0 then 1 else c1

/-- `payloadIdCounter` after `n` submissions; it starts at 0. -/
def payloadIdCounterAfter : Nat → Nat
  | 0 => 0
  | n + 1 => nextPayloadId (payloadIdCounterAfter n)

/-- The id assigned to the `n`-th submission (numbered from 1): the counter
value right after that submission's `nextPayloadId` call. -/
def idOfSubmission (n : Nat) : Nat := payloadIdCounterAfter n

/-- The connection fields the claims depend on, as set up by
`socketAPNSConnectionBufSize`; the socket is kept as an opaque tag. -/
structure APNSConnection where
  socket : Nat
  inFlightPayloadBufferSize : Nat
  inFlightPayloadBuffer : List idPayload
  inFlightByteBuffer : List Nat
  inFlightId : Nat
  payloadIdCounter : Nat
deriving DecidableEq

/-- `socketAPNSConnectionBufSize`. -/
def socketAPNSConnectionBufSize (socket : Nat) (bufferSize : Nat) : APNSConnection :=
  ⟨socket, bufferSize, [], [], 0, 0⟩

/-- `socketAPNSConnection`: fixes the buffer size at 10000. -/
def socketAPNSConnection (socket : Nat) : APNSConnection :=
  socketAPNSConnectionBufSize socket 10000

/-- `NewAPNSConnection`: the public constructor, taking only the socket. -/
def NewAPNSConnection (socket : Nat) : APNSConnection :=
  socketAPNSConnection socket

/-- Closed form for the id counter: after `n ≥ 1` submissions the counter is
`(n - 1) % (2 ^ 32 - 1) + 1`. -/
theorem payloadIdCounterAfter_closed (n : Nat) (h : 1 ≤ n) :
    payloadIdCounterAfter n = (n - 1) % (2 ^ 32 - 1) + 1 := by
  induction n with
  | zero => omega
  | succ m ih =>
    rcases Nat.eq_zero_or_pos m with hm | hm
    · subst hm
      norm_num [payloadIdCounterAfter, nextPayloadId]
    · have hc := ih hm
      have hdm := Nat.div_add_mod (m - 1) (2 ^ 32 - 1)
      have hlt : (m - 1) % (2 ^ 32 - 1) < 2 ^ 32 - 1 := Nat.mod_lt _ (by norm_num)
      have hdm2 := Nat.div_add_mod m (2 ^ 32 - 1)
      have hlt2 : m % (2 ^ 32 - 1) < 2 ^ 32 - 1 := Nat.mod_lt _ (by norm_num)
      have hstep : payloadIdCounterAfter (m + 1) = nextPayloadId (payloadIdCounterAfter m) := rfl
      rcases Nat.lt_or_ge ((m - 1) % (2 ^ 32 - 1)) (2 ^ 32 - 2) with hsmall | hbig
      · have hce : payloadIdCounterAfter m + 1 < 2 ^ 32 := by omega
        have hnext : nextPayloadId (payloadIdCounterAfter m) = payloadIdCounterAfter m + 1 := by
          simp only [nextPayloadId]
          rw [Nat.mod_eq_of_lt hce, if_neg (by omega)]
        rw [hstep, hnext, hc]
        omega
      · have hcv : payloadIdCounterAfter m = 2 ^ 32 - 1 := by omega
        have hnext : nextPayloadId (payloadIdCounterAfter m) = 1 := by
          rw [hcv]
          norm_num [nextPayloadId]
        rw [hstep, hnext]
        omega

/-- The submission-side state `sendListener` keeps: the in-flight payload
buffer (newest first, as `PushFront` builds it) and the id counter. -/
structure TrackerState where
  buffer : List idPayload
  counter : Nat
deriving DecidableEq

/-- One `SendChannel` submission inside `sendListener`: assign the next id,
push the identified payload at the front, and drop the back entry when the
buffer has overrun `inFlightPayloadBufferSize`. -/
def sendListenerSubmit (cap : Nat) (st : TrackerState) (p : Payload) : TrackerState :=
  let id := nextPayloadId st.counter
  let buf1 : List idPayload := ⟨p, id⟩ :: st.buffer
  let buf2 := if buf1.length > cap then buf1.dropLast else buf1
  ⟨buf2, id⟩

/-- Run a whole submission sequence from a fresh connection (empty buffer,
counter 0). -/
def submitAll (cap : Nat) (ps : List Payload) : TrackerState :=
  ps.foldl (sendListenerSubmit cap) ⟨[], 0⟩

/-- The error-resolution loop in `sendListener`: walk the buffer from the
front (newest); an entry whose id equals the (nonzero) reported id becomes
the error payload and stops the walk; every entry seen before it is pushed
onto the front of the unsent list, leaving that list oldest-first. -/
def gatherUnsent (msgId : Nat) : List idPayload → List Payload × Option Payload
  | [] => ([], none)
  | q :: rest =>
      if msgId ≠ 0 ∧ q.Id = msgId then ([], some q.Payload)
      else
        let r := gatherUnsent msgId rest
        (r.1 ++ [q.Payload], r.2)

/-- The `ConnectionClose` value `sendListener` sends on the close channel:
the overflow flag is `unsentPayloads.Len() > 0 && errorPayload == nil`. -/
def buildConnectionClose (buf : List idPayload) (appleError : AppleError) :
    ConnectionClose :=
  let r := gatherUnsent appleError.MessageId buf
  ⟨r.1, appleError, r.2, !r.1.isEmpty && r.2.isNone⟩

/-- Payloads tagged with consecutive ids starting at `start`. -/
def idsFrom (start : Nat) : List Payload → List idPayload
  | [] => []
  | p :: rest => ⟨p, start⟩ :: idsFrom (start + 1) rest

theorem idsFrom_concat (s : Nat) (xs : List Payload) (q : Payload) :
    idsFrom s (xs ++ [q]) = idsFrom s xs ++ [⟨q, s + xs.length⟩] := by
  induction xs generalizing s with
  | nil => simp [idsFrom]
  | cons x xs ih =>
    have harith : s + 1 + xs.length = s + (x :: xs).length := by
      rw [List.length_cons]
      omega
    calc idsFrom s ((x :: xs) ++ [q])
        = ⟨x, s⟩ :: idsFrom (s + 1) (xs ++ [q]) := rfl
      _ = ⟨x, s⟩ :: (idsFrom (s + 1) xs ++ [⟨q, s + 1 + xs.length⟩]) := by rw [ih]
      _ = (⟨x, s⟩ :: idsFrom (s + 1) xs) ++ [⟨q, s + 1 + xs.length⟩] := rfl
      _ = idsFrom s (x :: xs) ++ [⟨q, s + (x :: xs).length⟩] := by
            rw [harith]
            rfl

theorem idsFrom_length (s : Nat) (xs : List Payload) :
    (idsFrom s xs).length = xs.length := by
  induction xs generalizing s with
  | nil => rfl
  | cons x xs ih => simp [idsFrom, ih]

/-- With at most `cap` submissions and no counter wraparound, `submitAll`
retains everything: the buffer is the payload list with ids `1..N`,
newest first, and the counter equals `N`. -/
theorem submitAll_spec (cap : Nat) (ps : List Payload)
    (hcap : ps.length ≤ cap) (hlen : ps.length < 2 ^ 32) :
    submitAll cap ps = ⟨(idsFrom 1 ps).reverse, ps.length⟩ := by
  revert hcap hlen
  induction ps using List.reverseRecOn with
  | nil => intro _ _; rfl
  | append_singleton xs q ih =>
    intro hcap hlen
    rw [List.length_append, List.length_singleton] at hcap hlen
    have hx := ih (by omega) (by omega)
    simp only [submitAll] at hx ⊢
    rw [List.foldl_append, List.foldl_cons, List.foldl_nil, hx]
    simp only [sendListenerSubmit]
    have hid : nextPayloadId xs.length = xs.length + 1 := by
      simp only [nextPayloadId]
      rw [Nat.mod_eq_of_lt (by omega), if_neg (by omega)]
    rw [hid]
    rw [if_neg (by simp [List.length_reverse, idsFrom_length]; omega)]
    rw [idsFrom_concat, List.reverse_append]
    simp [Nat.add_comm]

/-- A reported id of 0 matches nothing: every retained payload is gathered
as unsent (oldest first) and no error payload is found. -/
theorem gatherUnsent_zero (buf : List idPayload) :
    gatherUnsent 0 buf = ((buf.map idPayload.Payload).reverse, none) := by
  induction buf with
  | nil => rfl
  | cons q rest ih => simp [gatherUnsent, ih]

/-- On the buffer built from submissions with ids `1..N`, a reported id
`k ∈ [1, N]` splits the history exactly: unsent is `ps.drop k` and the
error payload is the `k`-th submission. -/
theorem gatherUnsent_idsFrom (ps : List Payload) (k : Nat)
    (h1 : 1 ≤ k) (h2 : k ≤ ps.length) :
    gatherUnsent k ((idsFrom 1 ps).reverse) = (ps.drop k, ps[k - 1]?) := by
  revert h2
  induction ps using List.reverseRecOn with
  | nil => intro h2; simp at h2; omega
  | append_singleton xs q ih =>
    intro h2
    rw [List.length_append, List.length_singleton] at h2
    rw [idsFrom_concat, List.reverse_append]
    simp only [List.reverse_singleton, List.singleton_append]
    by_cases hk : k = xs.length + 1
    · rw [gatherUnsent, if_pos (by dsimp only; omega)]
      have hd : (xs ++ [q]).drop k = [] :=
        List.drop_eq_nil_of_le (by simp; omega)
      have hg : (xs ++ [q])[k - 1]? = some q := by
        have : k - 1 = xs.length := by omega
        rw [this, List.getElem?_concat_length]
      rw [hd, hg]
    · have hk2 : k ≤ xs.length := by omega
      rw [gatherUnsent, if_neg (by dsimp only; omega)]
      rw [ih hk2]
      have hd : (xs ++ [q]).drop k = xs.drop k ++ [q] :=
        List.drop_append_of_le_length hk2
      have hg : (xs ++ [q])[k - 1]? = xs[k - 1]? := by
        rw [List.getElem?_append, if_pos (by omega)]
      rw [hd, hg]

/-- The byte-buffer side of a connection, guarded by `inFlightBufferLock`:
the frame accumulator, the per-frame local item id (`uint8`), plus the
socket's observable history — the frames written to it, in order, and
whether it has been closed. -/
structure ConnState where
  buffer : List Nat
  inFlightId : Nat
  frames : List (List Nat)
  socketClosed : Bool
deriving DecidableEq

/-- The byte-buffer state of a freshly constructed connection. -/
def initConnState : ConnState := ⟨[], 0, [], false⟩

/-- The in-place length patch of `flushBufferToSocket`: bytes 1..4 become
`uint32(len(bufBytes) - 5)` big-endian (Go `int` subtraction cast to
`uint32`, hence the wraparound form). -/
def patchFrame (buf : List Nat) : List Nat :=
  let frameLength := (buf.length + 2 ^ 32 - 5) % 2 ^ 32
  ((((buf.set 1 (frameLength / 2 ^ 24 % 256)).set 2
      (frameLength / 2 ^ 16 % 256)).set 3
      (frameLength / 2 ^ 8 % 256)).set 4 (frameLength % 256))

/-- `flushBufferToSocket`: a no-op when the buffer is empty or holds only
the 5-byte header (the Go nil-buffer case cannot arise after construction);
otherwise patch the length bytes in place, write the whole buffer to the
socket as one frame, and on write failure close the socket (no retry). -/
def flushBufferToSocket (writeOk : Bool) (st : ConnState) : ConnState :=
  if st.buffer.length = 0 ∨ st.buffer.length = 5 then st
  else
    let patched := patchFrame st.buffer
    ⟨patched, st.inFlightId, st.frames ++ [patched], st.socketClosed || !writeOk⟩

/-- `noFlushDisconnect`: close the socket. -/
def noFlushDisconnect (st : ConnState) : ConnState :=
  { st with socketClosed := true }

/-- `Disconnect`: flush under the lock, then close the socket. -/
def Disconnect (writeOk : Bool) (st : ConnState) : ConnState :=
  noFlushDisconnect (flushBufferToSocket writeOk st)

/-- The Go priority normalization in `bufferPayload`: anything other than
10 or 5 is overwritten with 5. -/
def normalizePriority (p : Nat) : Nat := if p ≠ 10 ∧ p ≠ 5 then 5 else p

/-- The item bytes after the 1-byte local id: the 2-byte length field
`32 + len(payloadBytes) + 4 + 4 + 1`, then token bytes, payload bytes,
notification id (4), expiration (4) and the priority byte — all written
big-endian into `itemBuffer`. -/
def encodeItemTail (token payloadBytes : List Nat) (id exp priority : Nat) : List Nat :=
  be16 (32 + payloadBytes.length + 4 + 4 + 1) ++ token ++ payloadBytes ++
    be32 id ++ be32 exp ++ [priority % 256]

/-- `bufferPayload`: decode the token hex (failure: `Disconnect` and
return), marshal the alert body with the 256-byte bound (failure:
`Disconnect` and return), normalize the payload's priority in place, build
the item bytes, then under the lock: if the item would push the frame past
`TCP_FRAME_MAX`, flush and reset; on an over-limit or empty buffer write a
fresh 5-byte envelope header and reset the local id to 0, otherwise
increment the `uint8` local id; finally append the item with its local id
byte.  Returns the new state and the payload as the caller now sees it. -/
def bufferPayload (writeOk : Bool) (st : ConnState) (q : idPayload) :
    ConnState × Payload :=
  match hexDecode q.Payload.Token with
  | none => (Disconnect writeOk st, q.Payload)
  | some token =>
    match marshalAlertBodyPayload q.Payload 256 with
    | none => (Disconnect writeOk st, q.Payload)
    | some payloadBytes =>
        let priority := normalizePriority q.Payload.Priority
        let newPayload := { q.Payload with Priority := priority }
        let itemTail := encodeItemTail token payloadBytes q.Id
          q.Payload.ExpirationTime priority
        let itemLen := 1 + itemTail.length
        let st1 :=
          if st.buffer.length + itemLen > TCP_FRAME_MAX ∨ st.buffer.length = 0 then
            let st0 :=
              if st.buffer.length + itemLen > TCP_FRAME_MAX then
                let stf := flushBufferToSocket writeOk st
                { stf with buffer := [] }
              else st
            { st0 with buffer := st0.buffer ++ 2 :: be32 0, inFlightId := 0 }
          else { st with inFlightId := (st.inFlightId + 1) % 256 }
        ({ st1 with buffer := st1.buffer ++ st1.inFlightId :: itemTail }, newPayload)

/-- A sequence of `bufferPayload` calls, as the send loop performs them. -/
def runPayloads (writeOk : Bool) (st : ConnState) (qs : List idPayload) : ConnState :=
  qs.foldl (fun s q => (bufferPayload writeOk s q).1) st

theorem patchFrame_length (buf : List Nat) : (patchFrame buf).length = buf.length := by
  simp [patchFrame]

theorem hexDecodeList_length : ∀ (cs : List Char) (t : List Nat),
    hexDecodeList cs = some t → cs.length = 2 * t.length
  | [], t, h => by
      simp only [hexDecodeList, Option.some.injEq] at h
      subst h
      rfl
  | [c], t, h => by
      simp [hexDecodeList] at h
  | c1 :: c2 :: rest, t, h => by
      rcases hd1 : hexDigitVal c1 with _ | v1 <;>
        rcases hd2 : hexDigitVal c2 with _ | v2 <;>
          rcases hr : hexDecodeList rest with _ | tr <;>
            simp only [hexDecodeList, hd1, hd2, hr, Option.some.injEq,
              reduceCtorEq] at h
      have hrec := hexDecodeList_length rest tr hr
      subst h
      simp only [List.length_cons]
      omega

theorem hexDecode_length (s : String) (t : List Nat)
    (h : hexDecode s = some t) : s.length = 2 * t.length :=
  hexDecodeList_length s.data t h

theorem hexDecodeList_replicate (n : Nat) :
    hexDecodeList (List.replicate (2 * n) 'a') = some (List.replicate n 170) := by
  induction n with
  | zero => rfl
  | succ m ih =>
      have h2 : 2 * (m + 1) = 2 * m + 1 + 1 := by omega
      have ha : hexDigitVal 'a' = some 10 := by decide
      rw [h2, List.replicate_succ, List.replicate_succ]
      simp only [hexDecodeList, ha, ih]
      rw [List.replicate_succ]

theorem marshalAlertBodyPayload_bound (p : Payload) (m : Nat) (b : List Nat)
    (h : marshalAlertBodyPayload p m = some b) : b = p.AlertBytes ∧ b.length ≤ m := by
  unfold marshalAlertBodyPayload at h
  by_cases hle : p.AlertBytes.length ≤ m
  · rw [if_pos hle, Option.some.injEq] at h
    subst h
    exact ⟨rfl, hle⟩
  · rw [if_neg hle] at h
    exact absurd h (by simp)

theorem normalizePriority_byte (p : Nat) :
    normalizePriority p % 256 = if p = 5 ∨ p = 10 then p else 5 := by
  unfold normalizePriority
  by_cases h5 : p = 5
  · subst h5
    norm_num
  · by_cases h10 : p = 10
    · subst h10
      norm_num
    · rw [if_pos ⟨h10, h5⟩, if_neg (by tauto)]

theorem encodeItemTail_getLast (token payloadBytes : List Nat) (id exp pr : Nat) :
    (encodeItemTail token payloadBytes id exp pr).getLast? = some (pr % 256) := by
  simp [encodeItemTail, List.getLast?_append]

theorem getLast?_append_cons (l : List Nat) (a : Nat) (t : List Nat) (x : Nat)
    (h : t.getLast? = some x) : (l ++ a :: t).getLast? = some x := by
  rw [List.getLast?_append, show a :: t = [a] ++ t from rfl, List.getLast?_append, h]
  rfl

theorem encodeItemTail_length (token payloadBytes : List Nat) (id exp pr : Nat) :
    (encodeItemTail token payloadBytes id exp pr).length
      = 2 + token.length + payloadBytes.length + 9 := by
  simp [encodeItemTail, be16, be32]
  omega

theorem beVal16_be16_append (d : Nat) (r : List Nat) (h : d < 65536) :
    beVal16 (be16 d ++ r) = d := by
  simp [beVal16, be16]
  omega

/-- Sample payloads for concrete instantiations. -/
def samplePayloadA : Payload := ⟨"ab", 10, 100, [1]⟩

def samplePayloadB : Payload := ⟨"cd", 5, 200, [2]⟩

def samplePayloadC : Payload := ⟨"ef", 5, 300, [3]⟩

/-- C10: a connection built through the public constructor
`NewAPNSConnection` from a transport alone goes through
`socketAPNSConnectionBufSize` with the replay-buffer capacity hard-wired to
10000; the constructor's only parameter is the socket, so no capacity can be
chosen. -/
theorem claim_C10_constructor_capacity (socket : Nat) :
    NewAPNSConnection socket = socketAPNSConnectionBufSize socket 10000 ∧
    (NewAPNSConnection socket).inFlightPayloadBufferSize = 10000 :=
  ⟨rfl, rfl⟩

/-- C6 (amended): ids start at 1, are never zero, and equal the submission
index — hence are pairwise distinct — for the first `2^32 − 1` submissions;
past the 32-bit maximum the counter wraps back to 1 (skipping zero), so ids
do repeat once a connection performs `2^32` or more submissions. -/
theorem claim_C6_amended (m n : Nat) (h1 : 1 ≤ m) (h2 : m < n)
    (h3 : n ≤ 2 ^ 32 - 1) :
    idOfSubmission m = m ∧ idOfSubmission n = n ∧
    idOfSubmission m ≠ idOfSubmission n ∧ idOfSubmission m ≠ 0 ∧
    idOfSubmission 1 = 1 ∧
    idOfSubmission (n + 1) = (if n = 2 ^ 32 - 1 then 1 else n + 1) := by
  have hm := payloadIdCounterAfter_closed m (by omega)
  have hn := payloadIdCounterAfter_closed n (by omega)
  have hn1 := payloadIdCounterAfter_closed (n + 1) (by omega)
  have em : idOfSubmission m = m := by
    rw [idOfSubmission, hm, Nat.mod_eq_of_lt (by omega)]
    omega
  have en : idOfSubmission n = n := by
    rw [idOfSubmission, hn, Nat.mod_eq_of_lt (by omega)]
    omega
  refine ⟨em, en, by omega, by omega, rfl, ?_⟩
  rw [idOfSubmission, hn1, Nat.add_sub_cancel]
  by_cases hw : n = 2 ^ 32 - 1
  · rw [if_pos hw, hw, Nat.mod_self]
  · rw [if_neg hw, Nat.mod_eq_of_lt (by omega)]

theorem claim_C6_witness :
    idOfSubmission 1 = 1 ∧ idOfSubmission 2 = 2 ∧
    idOfSubmission 1 ≠ idOfSubmission 2 := by
  have h := claim_C6_amended 1 2 (by norm_num) (by norm_num) (by norm_num)
  exact ⟨h.1, h.2.1, h.2.2.1⟩

/-- C6 (counterexample): the id sequence is periodic with period
`2^32 − 1`: submission 1 and submission `2^32` both receive id 1, so ids do
repeat within one connection's lifetime, contradicting the claim. -/
theorem claim_C6_counterexample :
    idOfSubmission 1 = 1 ∧ idOfSubmission (2 ^ 32) = 1 ∧ (1 : Nat) ≠ 2 ^ 32 := by
  refine ⟨rfl, ?_, by norm_num⟩
  rw [idOfSubmission, payloadIdCounterAfter_closed (2 ^ 32) (by norm_num)]
  norm_num [Nat.mod_self]

/-- C2 (amended): for a successfully read 6-byte error response whose
error-code byte is not in the known response table, the produced ErrorEvent
carries the raw remote code unchanged and the empty string — the zero value
of a missing Go map key — not the UNKNOWN sentinel (255, "UNKNOWN"). -/
theorem claim_C2_amended (bytes : List Nat)
    (h : APPLE_PUSH_RESPONSES (bytes.getD 1 0 % 256) = none) :
    (closeListener (Except.ok bytes)).ErrorCode = bytes.getD 1 0 % 256 ∧
    (closeListener (Except.ok bytes)).ErrorString = "" := by
  refine ⟨rfl, ?_⟩
  have hes : (closeListener (Except.ok bytes)).ErrorString
      = (APPLE_PUSH_RESPONSES (bytes.getD 1 0 % 256)).getD "" := rfl
  rw [hes, h]
  rfl

theorem claim_C2_witness :
    (closeListener (Except.ok [8, 9, 0, 0, 0, 1])).ErrorCode = 9 ∧
    (closeListener (Except.ok [8, 9, 0, 0, 0, 1])).ErrorString = "" := by
  have h := claim_C2_amended [8, 9, 0, 0, 0, 1] (by rfl)
  simpa using h

/-- C2 (counterexample): error-code byte 9 is outside the table; the
resulting ErrorEvent is (9, ""), not the UNKNOWN sentinel (255, "UNKNOWN"). -/
theorem claim_C2_counterexample :
    (closeListener (Except.ok [8, 9, 0, 0, 0, 1])).ErrorCode = 9 ∧
    (closeListener (Except.ok [8, 9, 0, 0, 0, 1])).ErrorString = "" ∧
    ¬((closeListener (Except.ok [8, 9, 0, 0, 0, 1])).ErrorCode = 255 ∧
      (closeListener (Except.ok [8, 9, 0, 0, 0, 1])).ErrorString = "UNKNOWN") := by
  refine ⟨rfl, rfl, ?_⟩
  intro hc
  exact absurd hc.1 (by decide)

/-- C1 (amended): the overflow flag is set exactly when the retained
history is nonempty and no entry matched the error id — independent of
whether anything was ever evicted.  In Scenario B (transport read fails
before any peer reply) the event is code 10 (SHUTDOWN) with id 0, there is
no error payload, every retained payload is reported unsent (oldest first),
and the overflow flag is true as soon as at least one payload was retained. -/
theorem claim_C1_amended (buf : List idPayload) (msg : String) :
    (closeListener (Except.error msg)).ErrorCode = 10 ∧
    (closeListener (Except.error msg)).MessageId = 0 ∧
    (buildConnectionClose buf (closeListener (Except.error msg))).ErrorPayload
      = none ∧
    (buildConnectionClose buf (closeListener (Except.error msg))).UnsentPayloads
      = (buf.map idPayload.Payload).reverse ∧
    ((buildConnectionClose buf (closeListener (Except.error msg))).UnsentPayloadBufferOverflow
      ↔ buf ≠ []) ∧
    ∀ (buf2 : List idPayload) (ae : AppleError),
      (buildConnectionClose buf2 ae).UnsentPayloadBufferOverflow ↔
        ((buildConnectionClose buf2 ae).UnsentPayloads ≠ [] ∧
          (buildConnectionClose buf2 ae).ErrorPayload = none) := by
  refine ⟨rfl, rfl, ?_, ?_, ?_, ?_⟩
  · simp [buildConnectionClose, closeListener, gatherUnsent_zero]
  · simp [buildConnectionClose, closeListener, gatherUnsent_zero]
  · simp [buildConnectionClose, closeListener, gatherUnsent_zero]
  · intro buf2 ae
    simp [buildConnectionClose, Bool.and_eq_true, List.isEmpty_iff,
      Option.isNone_iff_eq_none]

/-- C1 (counterexample): one submission, capacity 10000 (no eviction is
possible), transport read failure: the claim requires overflow = false, but
the code reports overflow = true. -/
theorem claim_C1_counterexample :
    (buildConnectionClose (submitAll 10000 [samplePayloadA]).buffer
        (closeListener (Except.error "EOF"))).UnsentPayloadBufferOverflow
      = true ∧ (1 : Nat) ≤ 10000 := by
  constructor
  · rfl
  · norm_num

/-- C3: for a submission sequence of length `N` at most the buffer capacity
(and below the id wraparound bound `2^32`, which the program's fixed
capacity of 10000 always guarantees), a peer-reported error carrying the id
`k` of the `k`-th submission makes the close report list exactly the
payloads submitted after id `k`, in submission order (oldest first), as
unsent, with the `k`-th payload as the error payload. -/
theorem claim_C3_error_partition (cap : Nat) (ps : List Payload)
    (k code : Nat) (estr : String) (hcap : ps.length ≤ cap)
    (hlen : ps.length < 2 ^ 32) (hk1 : 1 ≤ k) (hk2 : k ≤ ps.length) :
    (buildConnectionClose (submitAll cap ps).buffer
        ⟨k, code, estr⟩).UnsentPayloads = ps.drop k ∧
    (buildConnectionClose (submitAll cap ps).buffer
        ⟨k, code, estr⟩).ErrorPayload = ps[k - 1]? := by
  rw [submitAll_spec cap ps hcap hlen]
  unfold buildConnectionClose
  dsimp only
  rw [gatherUnsent_idsFrom ps k hk1 hk2]
  exact ⟨rfl, rfl⟩

theorem claim_C3_witness :
    (buildConnectionClose
        (submitAll 10000 [samplePayloadA, samplePayloadB, samplePayloadC]).buffer
        ⟨2, 8, "INVALID_TOKEN"⟩).UnsentPayloads = [samplePayloadC] ∧
    (buildConnectionClose
        (submitAll 10000 [samplePayloadA, samplePayloadB, samplePayloadC]).buffer
        ⟨2, 8, "INVALID_TOKEN"⟩).ErrorPayload = some samplePayloadB := by
  have h := claim_C3_error_partition 10000
    [samplePayloadA, samplePayloadB, samplePayloadC] 2 8 "INVALID_TOKEN"
    (by norm_num) (by norm_num) (by norm_num) (by norm_num)
  simpa using h

theorem set_patch_decomp (x0 x1 x2 x3 x4 a b c d : Nat) (rest : List Nat) :
    (((((x0 :: x1 :: x2 :: x3 :: x4 :: rest).set 1 a).set 2 b).set 3 c).set 4 d)
      = x0 :: a :: b :: c :: d :: rest := rfl

theorem patchFrame_decomp (buf : List Nat) (h : 5 ≤ buf.length)
    (h2 : buf.length - 5 < 2 ^ 32) :
    patchFrame buf = buf.take 1 ++ be32 (buf.length - 5) ++ buf.drop 5 := by
  obtain ⟨x0, t0, rfl⟩ : ∃ y ys, buf = y :: ys := by
    cases buf with
    | nil => simp at h
    | cons y ys => exact ⟨y, ys, rfl⟩
  obtain ⟨x1, t1, rfl⟩ : ∃ y ys, t0 = y :: ys := by
    cases t0 with
    | nil => simp at h
    | cons y ys => exact ⟨y, ys, rfl⟩
  obtain ⟨x2, t2, rfl⟩ : ∃ y ys, t1 = y :: ys := by
    cases t1 with
    | nil => simp at h
    | cons y ys => exact ⟨y, ys, rfl⟩
  obtain ⟨x3, t3, rfl⟩ : ∃ y ys, t2 = y :: ys := by
    cases t2 with
    | nil => simp at h
    | cons y ys => exact ⟨y, ys, rfl⟩
  obtain ⟨x4, t4, rfl⟩ : ∃ y ys, t3 = y :: ys := by
    cases t3 with
    | nil => simp at h
    | cons y ys => exact ⟨y, ys, rfl⟩
  simp only [patchFrame, set_patch_decomp, List.length_cons]
  have hlen : t4.length + 1 + 1 + 1 + 1 + 1 + 2 ^ 32 - 5 = t4.length + 2 ^ 32 := by
    omega
  rw [hlen, Nat.add_mod_right]
  have hmod : t4.length % 2 ^ 32 = t4.length := by
    simp only [List.length_cons] at h2
    exact Nat.mod_eq_of_lt (by omega)
  rw [hmod]
  simp [be32]

/-- C7: `flushBufferToSocket` is a no-op exactly when the frame buffer is
empty or holds only the 5-byte header; otherwise (for any frame whose
length field fits 32 bits) it patches bytes 1..4 in place with the
big-endian frame length `totalBytes − 5`, writes the whole patched buffer
to the transport as a single frame (no retry), and a failed write marks the
socket closed. -/
theorem claim_C7_flush (writeOk : Bool) (st : ConnState) :
    (flushBufferToSocket writeOk st = st ↔
      st.buffer.length = 0 ∨ st.buffer.length = 5) ∧
    (st.buffer.length > 5 → st.buffer.length - 5 < 2 ^ 32 →
      flushBufferToSocket writeOk st =
        ⟨patchFrame st.buffer, st.inFlightId,
          st.frames ++ [patchFrame st.buffer], st.socketClosed || !writeOk⟩ ∧
      patchFrame st.buffer
        = st.buffer.take 1 ++ be32 (st.buffer.length - 5) ++ st.buffer.drop 5) := by
  constructor
  · constructor
    · intro heq
      by_contra hne
      push_neg at hne
      have hfr : (flushBufferToSocket writeOk st).frames
          = st.frames ++ [patchFrame st.buffer] := by
        unfold flushBufferToSocket
        rw [if_neg (by tauto)]
      rw [heq] at hfr
      have hlen := congrArg List.length hfr
      simp at hlen
    · intro hc
      unfold flushBufferToSocket
      rw [if_pos hc]
  · intro h5 h32
    refine ⟨?_, patchFrame_decomp st.buffer (by omega) h32⟩
    unfold flushBufferToSocket
    rw [if_neg (by omega)]

theorem claim_C7_witness :
    flushBufferToSocket false ⟨[2, 0, 0, 0, 0, 7], 3, [], false⟩
      = ⟨[2, 0, 0, 0, 1, 7], 3, [[2, 0, 0, 0, 1, 7]], true⟩ := by
  have h := (claim_C7_flush false ⟨[2, 0, 0, 0, 0, 7], 3, [], false⟩).2
    (by norm_num) (by norm_num)
  rw [h.1, h.2]
  rfl

/-- C8: the priority byte encoded into an item is the payload's priority
when that priority is 5 or 10, and 5 otherwise: it is the last byte of the
item tail and the last byte appended to the frame buffer. -/
theorem claim_C8_priority_normalization (writeOk : Bool) (st : ConnState)
    (q : idPayload) (token payloadBytes : List Nat)
    (hTok : hexDecode q.Payload.Token = some token)
    (hM : marshalAlertBodyPayload q.Payload 256 = some payloadBytes) :
    ((bufferPayload writeOk st q).1.buffer).getLast?
      = some (if q.Payload.Priority = 5 ∨ q.Payload.Priority = 10
              then q.Payload.Priority else 5) ∧
    (encodeItemTail token payloadBytes q.Id q.Payload.ExpirationTime
        (normalizePriority q.Payload.Priority)).getLast?
      = some (if q.Payload.Priority = 5 ∨ q.Payload.Priority = 10
              then q.Payload.Priority else 5) := by
  have htail := encodeItemTail_getLast token payloadBytes q.Id
    q.Payload.ExpirationTime (normalizePriority q.Payload.Priority)
  rw [normalizePriority_byte] at htail
  constructor
  · simp only [bufferPayload, hTok, hM]
    exact getLast?_append_cons _ _ _ _ htail
  · exact htail

theorem claim_C8_witness :
    ((bufferPayload true initConnState ⟨⟨"ab", 7, 9, [1]⟩, 1⟩).1.buffer).getLast?
      = some 5 := by
  have h := claim_C8_priority_normalization true initConnState
    ⟨⟨"ab", 7, 9, [1]⟩, 1⟩ [171] [1] (by decide) (by decide)
  simpa using h.1

/-- C9 (amended): encoding leaves the payload's Token, ExpirationTime and
alert body unchanged, but it does mutate the payload's Priority field in
place, normalizing it (5 or 10 kept, anything else overwritten with 5);
when token decoding or marshalling fails the payload is returned untouched
and the connection is torn down via `Disconnect`. -/
theorem claim_C9_amended (writeOk : Bool) (st : ConnState) (q : idPayload) :
    ((bufferPayload writeOk st q).2.Token = q.Payload.Token ∧
     (bufferPayload writeOk st q).2.ExpirationTime = q.Payload.ExpirationTime ∧
     (bufferPayload writeOk st q).2.AlertBytes = q.Payload.AlertBytes) ∧
    ((hexDecode q.Payload.Token).isSome ∧
        (marshalAlertBodyPayload q.Payload 256).isSome →
      (bufferPayload writeOk st q).2.Priority
        = normalizePriority q.Payload.Priority) ∧
    (hexDecode q.Payload.Token = none ∨
        marshalAlertBodyPayload q.Payload 256 = none →
      bufferPayload writeOk st q = (Disconnect writeOk st, q.Payload)) := by
  rcases h1 : hexDecode q.Payload.Token with _ | token
  · refine ⟨?_, ?_, ?_⟩
    · simp [bufferPayload, h1]
    · intro hc
      simp at hc
    · intro _
      simp [bufferPayload, h1]
  · rcases h2 : marshalAlertBodyPayload q.Payload 256 with _ | pb
    · refine ⟨?_, ?_, ?_⟩
      · simp [bufferPayload, h1, h2]
      · intro hc
        simp at hc
      · intro _
        simp [bufferPayload, h1, h2]
    · refine ⟨?_, ?_, ?_⟩
      · simp [bufferPayload, h1, h2]
      · intro _
        simp [bufferPayload, h1, h2]
      · intro hc
        rcases hc with hc | hc <;> simp at hc

theorem claim_C9_witness :
    (bufferPayload true initConnState ⟨⟨"ab", 7, 9, [1]⟩, 1⟩).2.Token = "ab" ∧
    (bufferPayload true initConnState ⟨⟨"ab", 7, 9, [1]⟩, 1⟩).2.Priority = 5 := by
  have h := claim_C9_amended true initConnState ⟨⟨"ab", 7, 9, [1]⟩, 1⟩
  refine ⟨h.1.1, ?_⟩
  have hp := h.2.1 ⟨by decide, by decide⟩
  rw [hp]
  decide

/-- C9 (counterexample): a payload submitted with priority 7 comes back
from encoding with its Priority field mutated to 5, so encoding is not
side-effect free on its inputs. -/
theorem claim_C9_counterexample :
    (bufferPayload true initConnState ⟨⟨"ab", 7, 9, [1]⟩, 1⟩).2.Priority = 5 ∧
    (5 : Nat) ≠ 7 := by
  constructor
  · decide
  · norm_num

/-- C5 (amended): the 2-byte itemLength field always encodes
`32 + len(payloadBytes) + 4 + 4 + 1`, while the bytes actually written for
the item after the localId and itemLength fields number
`len(token) + len(payloadBytes) + 9`; the field matches the bytes actually
written precisely when the token decodes to exactly 32 bytes (64 hex
characters) — for any other successfully decoding token the field is wrong. -/
theorem claim_C5_amended (p : Payload) (id : Nat) (token payloadBytes : List Nat)
    (hTok : hexDecode p.Token = some token)
    (hM : marshalAlertBodyPayload p 256 = some payloadBytes) :
    beVal16 (encodeItemTail token payloadBytes id p.ExpirationTime
        (normalizePriority p.Priority))
      = 32 + payloadBytes.length + 4 + 4 + 1 ∧
    ((encodeItemTail token payloadBytes id p.ExpirationTime
        (normalizePriority p.Priority)).drop 2).length
      = token.length + payloadBytes.length + 9 ∧
    (32 + payloadBytes.length + 4 + 4 + 1
        = token.length + payloadBytes.length + 9 ↔ token.length = 32) := by
  have hb := (marshalAlertBodyPayload_bound p 256 payloadBytes hM).2
  refine ⟨?_, ?_, by omega⟩
  · exact beVal16_be16_append _ _ (by omega)
  · have hdrop : (encodeItemTail token payloadBytes id p.ExpirationTime
        (normalizePriority p.Priority)).drop 2
        = token ++ payloadBytes ++ be32 id ++ be32 p.ExpirationTime ++
            [normalizePriority p.Priority % 256] := by
      simp [encodeItemTail, be16]
    rw [hdrop]
    simp [be32]
    omega

theorem claim_C5_witness :
    beVal16 (encodeItemTail (List.replicate 32 0) [] 1 0 (normalizePriority 5))
      = 41 ∧
    ((encodeItemTail (List.replicate 32 0) [] 1 0
        (normalizePriority 5)).drop 2).length = 41 := by
  have h := claim_C5_amended
    ⟨"0000000000000000000000000000000000000000000000000000000000000000", 5, 0, []⟩
    1 (List.replicate 32 0) [] (by decide) (by decide)
  constructor
  · have h1 := h.1
    simpa using h1
  · have h2 := h.2.1
    simpa using h2

/-- C5 (counterexample): the 2-char token "ab" decodes successfully to one
byte, yet the itemLength field still claims 41 bytes while only 10 bytes
follow the localId and itemLength fields, so the field does not match the
bytes actually written. -/
theorem claim_C5_counterexample :
    hexDecode "ab" = some [171] ∧
    marshalAlertBodyPayload ⟨"ab", 5, 0, []⟩ 256 = some [] ∧
    beVal16 (encodeItemTail [171] [] 7 0 (normalizePriority 5)) = 41 ∧
    ((encodeItemTail [171] [] 7 0 (normalizePriority 5)).drop 2).length = 10 ∧
    (41 : Nat) ≠ 10 := by
  decide

theorem flush_preserves_bound (writeOk : Bool) (st : ConnState)
    (hbuf : st.buffer.length ≤ TCP_FRAME_MAX)
    (hfr : ∀ f ∈ st.frames, f.length ≤ TCP_FRAME_MAX) :
    (flushBufferToSocket writeOk st).buffer.length ≤ TCP_FRAME_MAX ∧
    ∀ f ∈ (flushBufferToSocket writeOk st).frames, f.length ≤ TCP_FRAME_MAX := by
  unfold flushBufferToSocket
  split
  · exact ⟨hbuf, hfr⟩
  · refine ⟨?_, ?_⟩
    · simpa [patchFrame_length] using hbuf
    · intro f hf
      rcases List.mem_append.mp hf with hf | hf
      · exact hfr f hf
      · rw [List.mem_singleton] at hf
        subst hf
        simpa [patchFrame_length] using hbuf

theorem disconnect_preserves_bound (writeOk : Bool) (st : ConnState)
    (hbuf : st.buffer.length ≤ TCP_FRAME_MAX)
    (hfr : ∀ f ∈ st.frames, f.length ≤ TCP_FRAME_MAX) :
    (Disconnect writeOk st).buffer.length ≤ TCP_FRAME_MAX ∧
    ∀ f ∈ (Disconnect writeOk st).frames, f.length ≤ TCP_FRAME_MAX := by
  unfold Disconnect noFlushDisconnect
  exact flush_preserves_bound writeOk st hbuf hfr

theorem bufferPayload_preserves_bound (writeOk : Bool) (st : ConnState)
    (q : idPayload) (hTok : q.Payload.Token.length ≤ 130524)
    (hbuf : st.buffer.length ≤ TCP_FRAME_MAX)
    (hfr : ∀ f ∈ st.frames, f.length ≤ TCP_FRAME_MAX) :
    (bufferPayload writeOk st q).1.buffer.length ≤ TCP_FRAME_MAX ∧
    ∀ f ∈ (bufferPayload writeOk st q).1.frames, f.length ≤ TCP_FRAME_MAX := by
  rcases h1 : hexDecode q.Payload.Token with _ | token
  · have hfl := disconnect_preserves_bound writeOk st hbuf hfr
    simpa [bufferPayload, h1] using hfl
  · rcases h2 : marshalAlertBodyPayload q.Payload 256 with _ | pb
    · have hfl := disconnect_preserves_bound writeOk st hbuf hfr
      simpa [bufferPayload, h1, h2] using hfl
    · have htok2 : q.Payload.Token.length = 2 * token.length :=
        hexDecode_length _ _ h1
      have htokb : token.length ≤ 65262 := by omega
      have hpb : pb.length ≤ 256 := (marshalAlertBodyPayload_bound _ _ _ h2).2
      have htl := encodeItemTail_length token pb q.Id q.Payload.ExpirationTime
        (normalizePriority q.Payload.Priority)
      have hflush := flush_preserves_bound writeOk st hbuf hfr
      simp only [bufferPayload, h1, h2]
      split
      case isTrue hcond =>
        split
        case isTrue hov =>
          constructor
          · simp only [List.length_append, List.nil_append, List.length_cons]
            rw [htl]
            simp [be32, TCP_FRAME_MAX]
            omega
          · exact hflush.2
        case isFalse hov =>
          have hz : st.buffer.length = 0 := by tauto
          constructor
          · simp only [List.length_append, List.length_cons]
            rw [htl, hz]
            simp [be32, TCP_FRAME_MAX]
            omega
          · exact hfr
      case isFalse hcond =>
        push_neg at hcond
        constructor
        · simp only [List.length_append, List.length_cons]
          rw [htl]
          have := hcond.1
          rw [htl] at this
          omega
        · exact hfr

theorem runPayloads_bounded (writeOk : Bool) (qs : List idPayload)
    (hTok : ∀ q ∈ qs, q.Payload.Token.length ≤ 130524) : ∀ (st : ConnState),
    st.buffer.length ≤ TCP_FRAME_MAX →
    (∀ f ∈ st.frames, f.length ≤ TCP_FRAME_MAX) →
    (runPayloads writeOk st qs).buffer.length ≤ TCP_FRAME_MAX ∧
    ∀ f ∈ (runPayloads writeOk st qs).frames, f.length ≤ TCP_FRAME_MAX := by
  induction qs with
  | nil => exact fun st hbuf hfr => ⟨hbuf, hfr⟩
  | cons q qs ih =>
      intro st hbuf hfr
      have hstep := bufferPayload_preserves_bound writeOk st q
        (hTok q (by simp)) hbuf hfr
      exact ih (fun x hx => hTok x (by simp [hx])) _ hstep.1 hstep.2

/-- C4: before an item is appended, if the current buffer plus the item
would exceed `TCP_FRAME_MAX`, the existing buffer is flushed first and a
fresh envelope (5-byte header, local id reset to 0) is started;
consequently — provided every submitted token hex string is at most 130524
characters, so that each encoded item fits a frame (the protocol's 64-char
tokens trivially satisfy this) — every frame written from a fresh
connection, and the buffer itself, stays within `TCP_FRAME_MAX` including
the 5-byte header. -/
theorem claim_C4_frame_bound (writeOk : Bool) (qs : List idPayload)
    (hTok : ∀ q ∈ qs, q.Payload.Token.length ≤ 130524) :
    ((runPayloads writeOk initConnState qs).buffer.length ≤ TCP_FRAME_MAX ∧
     ∀ f ∈ (runPayloads writeOk initConnState qs).frames,
       f.length ≤ TCP_FRAME_MAX) ∧
    ∀ (st : ConnState) (q : idPayload) (token payloadBytes : List Nat),
      hexDecode q.Payload.Token = some token →
      marshalAlertBodyPayload q.Payload 256 = some payloadBytes →
      st.buffer.length + (1 + (encodeItemTail token payloadBytes q.Id
          q.Payload.ExpirationTime
          (normalizePriority q.Payload.Priority)).length) > TCP_FRAME_MAX →
      (bufferPayload writeOk st q).1.frames
          = (flushBufferToSocket writeOk st).frames ∧
      (bufferPayload writeOk st q).1.buffer
          = 2 :: be32 0 ++ 0 :: encodeItemTail token payloadBytes q.Id
              q.Payload.ExpirationTime (normalizePriority q.Payload.Priority) ∧
      (bufferPayload writeOk st q).1.inFlightId = 0 := by
  constructor
  · exact runPayloads_bounded writeOk qs hTok initConnState
      (by simp [initConnState]) (by simp [initConnState])
  · intro st q token payloadBytes hT hM hov
    simp only [bufferPayload, hT, hM]
    rw [if_pos (Or.inl hov), if_pos hov]
    refine ⟨rfl, by simp, rfl⟩

theorem claim_C4_witness :
    (runPayloads true initConnState [⟨⟨"ab", 5, 0, []⟩, 1⟩]).buffer.length
      ≤ TCP_FRAME_MAX :=
  (claim_C4_frame_bound true [⟨⟨"ab", 5, 0, []⟩, 1⟩]
    (by
      intro q hq
      have hq2 := List.mem_singleton.mp hq
      subst hq2
      decide)).1.1


theorem Disconnect_frames (writeOk : Bool) (st : ConnState) :
    (Disconnect writeOk st).frames = (flushBufferToSocket writeOk st).frames := rfl

/-- The overflow branch of `bufferPayload`, abstractly: flush first, fresh
envelope, local id 0, item appended after the header. -/
theorem bufferPayload_overflow_branch (writeOk : Bool) (st : ConnState)
    (p : Payload) (pid : Nat) (token pb : List Nat)
    (hT : hexDecode p.Token = some token)
    (hMar : marshalAlertBodyPayload p 256 = some pb)
    (hov : st.buffer.length + (1 + (encodeItemTail token pb pid
        p.ExpirationTime
        (normalizePriority p.Priority)).length) > TCP_FRAME_MAX) :
    (bufferPayload writeOk st ⟨p, pid⟩).1.buffer
        = ([] ++ 2 :: be32 0) ++ (0 :: encodeItemTail token pb pid
            p.ExpirationTime (normalizePriority p.Priority)) ∧
    (bufferPayload writeOk st ⟨p, pid⟩).1.frames
        = (flushBufferToSocket writeOk st).frames ∧
    (bufferPayload writeOk st ⟨p, pid⟩).1.inFlightId = 0 := by
  simp only [bufferPayload, hT, hMar]
  rw [if_pos (Or.inl hov), if_pos hov]
  exact ⟨rfl, rfl, rfl⟩

/-- A payload whose hex token is 131048 characters (65524 bytes): a single
item of 65536 bytes, which no flush can make fit a 65535-byte frame. -/
def hugeTokenPayload : Payload := ⟨String.mk (List.replicate 131048 'a'), 5, 0, []⟩

/-- The 65524 bytes the huge token decodes to. -/
def tokenBytes : List Nat := List.replicate 65524 170

/-- C4 (counterexample): with an over-long (but successfully decoding)
token, `bufferPayload` flushes and starts a fresh envelope, yet the single
item already overflows it: disconnecting afterwards writes one frame of
65541 bytes, exceeding `TCP_FRAME_MAX = 65535`; the flush-first rule alone
does not bound frames for all inputs. -/
theorem claim_C4_counterexample :
    ((Disconnect true
        (bufferPayload true initConnState ⟨hugeTokenPayload, 1⟩).1).frames).map
      List.length = [65541] ∧ 65541 > TCP_FRAME_MAX := by
  have hdec : hexDecode hugeTokenPayload.Token = some tokenBytes := by
    show hexDecodeList (List.replicate 131048 'a') = some tokenBytes
    rw [show (131048 : Nat) = 2 * 65524 from by norm_num]
    exact hexDecodeList_replicate 65524
  have hM : marshalAlertBodyPayload hugeTokenPayload 256 = some [] := rfl
  have htokLen : tokenBytes.length = 65524 := by
    rw [show tokenBytes = List.replicate 65524 170 from rfl, List.length_replicate]
  have hov : initConnState.buffer.length + (1 + (encodeItemTail tokenBytes []
      1 hugeTokenPayload.ExpirationTime
      (normalizePriority hugeTokenPayload.Priority)).length) > TCP_FRAME_MAX := by
    rw [encodeItemTail_length, htokLen]
    decide
  have hbr := bufferPayload_overflow_branch true initConnState
    hugeTokenPayload 1 tokenBytes [] hdec hM hov
  have hblen : (bufferPayload true initConnState
      ⟨hugeTokenPayload, 1⟩).1.buffer.length = 65541 := by
    rw [hbr.1, List.length_append, List.length_append, List.length_cons,
      List.length_cons, encodeItemTail_length, htokLen]
    decide
  refine ⟨?_, by decide⟩
  rw [Disconnect_frames]
  unfold flushBufferToSocket
  rw [if_neg (by rw [hblen]; decide)]
  show ((bufferPayload true initConnState ⟨hugeTokenPayload, 1⟩).1.frames
      ++ [patchFrame (bufferPayload true initConnState
          ⟨hugeTokenPayload, 1⟩).1.buffer]).map List.length = [65541]
  rw [hbr.2.1]
  rw [show (flushBufferToSocket true initConnState).frames = [] from rfl]
  rw [List.nil_append, List.map_cons, List.map_nil, patchFrame_length, hblen]
